import Mathlib

/-!
Verification development for the nutrition-facts-vision-api label-analysis
pipeline.  The Python services under `app/services/nutrition` are embedded
shallowly: JSON values exchanged with the text-generation oracle become the
inductive type `Json`, Python dicts become association lists with Python's
first-key lookup and in-place overwrite semantics, and the stdlib functions
the code calls (`json.loads`, `str.lower`, `unicodedata.normalize` + ASCII
filtering) are modelled explicitly, the JSON parser as a function parameter
and the Unicode folding by a table restricted to the characters exercised
here.
-/

/-- JSON values as produced by `json.loads` / consumed by the services.
Numbers are modelled as rationals (Python ints and floats); `jbool` is kept
separate but note that Python `isinstance(x, (int, float))` also accepts
booleans, which the embedding mirrors where the code performs that check. -/
inductive Json where
  | null
  | jbool (b : Bool)
  | num (q : Rat)
  | str (s : String)
  | arr (xs : List Json)
  | obj (fields : List (String × Json))

/-- Python truthiness for JSON values: `None`, `False`, `0`, `""`, `[]`,
`{}` are falsy, everything else truthy. -/
def Json.truthy : Json → Bool
  | .null => false
  | .jbool b => b
  | .num q => q != 0
  | .str s => s != ""
  | .arr [] => false
  | .arr (_ :: _) => true
  | .obj [] => false
  | .obj (_ :: _) => true

/-- `d.get(k)` on a Python dict, modelled as first-match lookup in an
association list (dicts built by the code never hold duplicate keys). -/
def alGet {α : Type} (m : List (String × α)) (k : String) : Option α :=
  match m with
  | [] => none
  | (k0, v) :: rest => if k0 = k then some v else alGet rest k

/-- `d.get(k, default)`. -/
def alGetD (m : List (String × Json)) (k : String) (dflt : Json) : Json :=
  (alGet m k).getD dflt

/-- Field access on a JSON value that is expected to be an object. -/
def Json.lookup : Json → String → Option Json
  | .obj fields, k => alGet fields k
  | _, _ => none

/-- `d[k] = v` on a Python dict: overwrite in place if the key exists,
append otherwise. -/
def alInsert {α : Type} (m : List (String × α)) (k : String) (v : α) :
    List (String × α) :=
  match m with
  | [] => [(k, v)]
  | (k0, v0) :: rest =>
    if k0 = k then (k0, v) :: rest else (k0, v0) :: alInsert rest k v

/-- `d.setdefault(k, v)`. -/
def alSetdefault {α : Type} (m : List (String × α)) (k : String) (v : α) :
    List (String × α) :=
  if (alGet m k).isSome then m else m ++ [(k, v)]

/-- Characters removed by Python `str.strip()` with no argument. -/
def isPySpace (c : Char) : Bool :=
  c = ' ' || c = '\t' || c = '\n' || c = '\r'

/-- `str.strip()` on the underlying character list. -/
def stripChars (cs : List Char) : List Char :=
  ((cs.dropWhile isPySpace).reverse.dropWhile isPySpace).reverse

/-- Python `str.strip()`. -/
def pyStrip (s : String) : String := ⟨stripChars s.data⟩

/-- Case folding per character.  Python `str.lower()` is full Unicode; the
table covers ASCII plus the Turkish letters exercised by this code base. -/
def pyLowerChar (c : Char) : Char :=
  if 'A' ≤ c ∧ c ≤ 'Z' then Char.ofNat (c.toNat + 32)
  else if c = 'Ü' then 'ü'
  else if c = 'Ö' then 'ö'
  else if c = 'Ç' then 'ç'
  else if c = 'Ş' then 'ş'
  else if c = 'Ğ' then 'ğ'
  else c

/-- Python `str.lower()`. -/
def pyLower (s : String) : String := ⟨s.data.map pyLowerChar⟩

/-- Upper-casing per character (ASCII plus the same Turkish letters). -/
def pyUpperChar (c : Char) : Char :=
  if 'a' ≤ c ∧ c ≤ 'z' then Char.ofNat (c.toNat - 32)
  else if c = 'ü' then 'Ü'
  else if c = 'ö' then 'Ö'
  else if c = 'ç' then 'Ç'
  else if c = 'ş' then 'Ş'
  else if c = 'ğ' then 'Ğ'
  else c

/-- Python `str.upper()`. -/
def pyUpper (s : String) : String := ⟨s.data.map pyUpperChar⟩

example : pyStrip "  a b  " = "a b" := by decide
example : pyLower "MILK" = "milk" := by decide
example : pyUpper "e-330" = "E-330" := by decide

/-!
## Token normalization and allergen matching (`health_risk_assessor.py`)
-/

/-- One character of `unicodedata.normalize("NFKD", ·)` followed by
`.encode("ascii", "ignore")`: ASCII characters survive unchanged, accented
Latin letters decompose to their ASCII base letter (the combining mark is
dropped by the ASCII filter), and any other non-ASCII character is dropped.
The decomposition table is restricted to the characters exercised by this
development; characters outside it behave like undecomposable non-ASCII
(dropped), exactly as Turkish dotless ı or CJK characters do in Python. -/
def nfkdAscii (c : Char) : List Char :=
  if c.toNat < 128 then [c]
  else if c = 'ü' then ['u'] else if c = 'Ü' then ['U']
  else if c = 'ö' then ['o'] else if c = 'Ö' then ['O']
  else if c = 'ç' then ['c'] else if c = 'Ç' then ['C']
  else if c = 'ş' then ['s'] else if c = 'Ş' then ['S']
  else if c = 'ğ' then ['g'] else if c = 'Ğ' then ['G']
  else if c = 'İ' then ['I']
  else if c = 'é' then ['e'] else if c = 'è' then ['e']
  else if c = 'ä' then ['a'] else if c = 'á' then ['a']
  else if c = 'ñ' then ['n']
  else []

/-- Characters kept by the regex class `[a-z0-9]` (the input is already
lower-cased ASCII when this is applied). -/
def isLowerAlnum (c : Char) : Bool :=
  ('a' ≤ c && c ≤ 'z') || ('0' ≤ c && c ≤ '9')

/-- `re.sub(r"[^a-z0-9]+", " ", ·)`: each maximal run of non-alphanumeric
characters becomes a single space.  The boolean records whether the previous
character belonged to such a run. -/
def collapseAux : Bool → List Char → List Char
  | _, [] => []
  | inRun, c :: rest =>
    if isLowerAlnum c then c :: collapseAux false rest
    else if inRun then collapseAux true rest
    else ' ' :: collapseAux true rest

/-- `_normalize_token` on an actual string: NFKD + ASCII filter, lower-case,
collapse non-alphanumeric runs to single spaces, strip. -/
def normalizeTokenS (s : String) : String :=
  ⟨stripChars (collapseAux false (((s.data.map nfkdAscii).flatten).map pyLowerChar))⟩

/-- Splitting a character list at a separator character (structural, so
that concrete evaluation reduces in the kernel). -/
def splitCharAux (sep : Char) : List Char → List Char → List (List Char)
  | acc, [] => [acc.reverse]
  | acc, c :: rest =>
    if c = sep then acc.reverse :: splitCharAux sep [] rest
    else splitCharAux sep (c :: acc) rest

/-- Python `s.split(sep)` for a one-character separator. -/
def pySplitOn (sep : Char) (s : String) : List String :=
  (splitCharAux sep [] s.data).map (fun cs => ⟨cs⟩)

/-- `_normalize_token`: non-string inputs normalize to `""`. -/
def normalizeToken : Json → String
  | .str s => normalizeTokenS s
  | _ => ""

/-- `.split()` on a normalized token string (single internal spaces, no
edge spaces), dropping empty pieces. -/
def pyTokens (s : String) : List String :=
  (pySplitOn ' ' s).filter (fun t => t != "")

/-- Python `needle in hay` substring test on character lists. -/
def isSubChars : List Char → List Char → Bool
  | n, [] => n.isEmpty
  | n, c :: rest => n.isPrefixOf (c :: rest) || isSubChars n rest

/-- Python `needle in hay` on strings. -/
def pyInStr (needle hay : String) : Bool := isSubChars needle.data hay.data

/-- `_is_allergen_match`: the deterministic allergy override predicate.
An empty normalized ingredient never matches; empty-normalizing allergy
terms are skipped; otherwise token-set intersection or substring
containment in either direction is a match. -/
def isAllergenMatch (ingredientName : String) (allergyTerms : List Json) : Bool :=
  let ing := normalizeTokenS ingredientName
  if ing = "" then false
  else
    let ingToks := pyTokens ing
    allergyTerms.any (fun term =>
      let norm := normalizeToken term
      if norm = "" then false
      else
        (pyTokens norm).any (fun t => ingToks.contains t) ||
        pyInStr norm ing || pyInStr ing norm)

example : normalizeTokenS "süt tozu" = "sut tozu" := by decide
example : normalizeTokenS "!!!" = "" := by decide
example : normalizeTokenS "牛奶" = "" := by decide
example : normalizeTokenS "İçindekiler: Şeker!" = "icindekiler seker" := by decide
example : isAllergenMatch "süt tozu" [.str "süt"] = true := by decide
example : isAllergenMatch "milk powder" [.str "MILK"] = true := by decide
example : isAllergenMatch "牛奶" [.str "牛奶"] = false := by decide
example : pyInStr "" "milk" = true := by decide

/-!
## Python `str(...)` rendering

Used for `str(token)` coercions and f-strings.  Scalar cases follow Python;
the rendering of nested containers and of numerals is a modelled
approximation (no claim depends on its exact text).
-/

/-- Simplified numeral rendering for `str(number)`. -/
def ratStr (q : Rat) : String := toString q

/-- Python `str(x)` for JSON values; container rendering abstracted. -/
def pyStr (j : Json) : String :=
  match j with
  | .null => "None"
  | .jbool true => "True"
  | .jbool false => "False"
  | .num q => ratStr q
  | .str s => s
  | .arr _ => "[...]"
  | .obj _ => "\x7b...\x7d"

/-- `x or default` for a possibly-absent JSON value (`d.get(k) or v`). -/
def truthyOr (v : Option Json) (dflt : Json) : Json :=
  match v with
  | some j => if j.truthy then j else dflt
  | none => dflt

/-!
## `normalize_nutrition` (`label_parser.py`)

The function validates the structure of the oracle's `nutrition_data`: a
string is first parsed with `json.loads` (modelled as the `loads`
parameter, `none` = parse error, whereupon the code returns the empty
record `{}`), a non-dict collapses to the empty record, and a dict is
rebuilt with the fixed macro keys (numeric values — including Python
booleans, which pass `isinstance(val, (int, float))` — kept verbatim,
everything else nulled) plus a `micros` passthrough.  The result is `none`
exactly when the Python code would raise, i.e. when the `"values"` entry is
truthy but not a dict (`raw_values.get` on a non-dict). -/

/-- The fixed macro key list `EXPECTED_MACRO_KEYS`. -/
def EXPECTED_MACRO_KEYS : List String :=
  ["energy_kcal", "fat_total_g", "fat_saturated_g", "fat_trans_g",
   "carbohydrate_g", "sugar_g", "fiber_g", "protein_g", "salt_g"]

/-- A macro entry: numbers (and Python bools) kept, anything else nulled. -/
def cleanVal : Option Json → Json
  | some (.num q) => .num q
  | some (.jbool b) => .jbool b
  | _ => .null

/-- The `micros` entry: kept only when a non-empty dict. -/
def microsVal : Option Json → Json
  | some (.obj []) => .null
  | some (.obj (f :: fs)) => .obj (f :: fs)
  | _ => .null

/-- The rebuilt `values` dict, in the insertion order of the Python code. -/
def cleanValues (rf : List (String × Json)) : List (String × Json) :=
  EXPECTED_MACRO_KEYS.map (fun k => (k, cleanVal (alGet rf k))) ++
    [("micros", microsVal (alGet rf "micros"))]

/-- The full normalized record built from a dict input. -/
def normalizedObj (fields rf : List (String × Json)) : Json :=
  .obj [("basis", alGetD fields "basis" (.str "Unknown")),
        ("is_normalized_100g", alGetD fields "is_normalized_100g" (.jbool false)),
        ("values", .obj (cleanValues rf))]

/-- `raw_values = nutrition_data.get("values") or {}`, then use as a dict:
`none` models the `AttributeError` Python raises when the stored value is
truthy but not a dict. -/
def rawValues (fields : List (String × Json)) : Option (List (String × Json)) :=
  match alGet fields "values" with
  | none => some []
  | some v =>
    if v.truthy then
      match v with
      | .obj rf => some rf
      | _ => none
    else some []

/-- `normalize_nutrition` after the string-parsing guard. -/
def normalizeCore : Json → Option Json
  | .obj fields => (rawValues fields).map (normalizedObj fields)
  | _ => some (.obj [])

/-- `normalize_nutrition`, with `json.loads` as the `loads` parameter. -/
def normalizeNutrition (loads : String → Option Json) : Json → Option Json
  | .str s =>
    match loads s with
    | none => some (.obj [])
    | some j => normalizeCore j
  | j => normalizeCore j

/-!
## Risk maps (`health_risk_assessor.py`, `nutrition_analyzer.py`)
-/

/-- The canonical risk vocabulary. -/
def riskLabels : List String := ["Low", "Medium", "High"]

/-- Collecting the oracle's proposed risk entries: string labels in the
canonical vocabulary, keys stripped (JSON object keys are always strings,
so the `isinstance(name, str)` guard is vacuous here). -/
def parseRiskObj (fields : List (String × Json)) : List (String × String) :=
  fields.foldl
    (fun m kv =>
      match kv with
      | (name, .str label) =>
        if riskLabels.contains label then alInsert m (pyStrip name) label else m
      | _ => m)
    []

/-- The allergy list taken from the health profile: present only when the
profile is truthy and its `allergies` entry is a list. -/
def allergiesOf (profile : Json) : List Json :=
  if profile.truthy then
    match profile.lookup "allergies" with
    | some (.arr xs) => xs
    | _ => []
  else []

/-- The deterministic override loop: every ingredient matching an allergy
is forced to `"High"`. -/
def overrideAllergies (ingredients : List String) (allergyList : List Json)
    (m : List (String × String)) : List (String × String) :=
  if allergyList.isEmpty then m
  else
    ingredients.foldl
      (fun acc ing =>
        if isAllergenMatch ing allergyList then alInsert acc ing "High" else acc)
      m

/-- `risks.setdefault(ing, "Low")` over the ingredient list. -/
def setdefaultLow (ingredients : List String) (m : List (String × String)) :
    List (String × String) :=
  ingredients.foldl (fun acc ing => alSetdefault acc ing "Low") m

/-- `assess_ingredient_risks`, with the oracle's JSON response and the
already-extracted ingredient list as inputs. -/
def assessIngredientRisks (loads : String → Option Json) (oracleData : Json)
    (ingredients : List String) (profile : Json) : List (String × String) :=
  let data :=
    match oracleData with
    | .str s => (match loads s with | some j => j | none => .obj [])
    | j => j
  let risks := match data with | .obj fs => parseRiskObj fs | _ => []
  let risks1 := overrideAllergies ingredients (allergiesOf profile) risks
  setdefaultLow ingredients risks1

/-!
## `analyze_label_with_profile` (`nutrition_analyzer.py`)
-/

/-- `str(token)` for tokens passing `isinstance(token, (str, int, float))`
(which in Python also admits booleans). -/
def tokenStrOpt (j : Json) : Option String :=
  match j with
  | .str s => some s
  | .num q => some (ratStr q)
  | .jbool b => some (if b then "True" else "False")
  | _ => none

/-- The list branch of the unified ingredient parsing: keep scalar tokens
whose stripped rendering is non-empty. -/
def parseIngredientsArr (xs : List Json) : List String :=
  xs.foldr
    (fun j acc =>
      match tokenStrOpt j with
      | some s => if pyStrip s = "" then acc else pyStrip s :: acc
      | none => acc)
    []

/-- The branch where a string `ingredients` field parses (via `json.loads`)
to a list: keep truthy items, stripped, with no further emptiness filter. -/
def parseIngredientsParsedArr (xs : List Json) : List String :=
  xs.foldr (fun j acc => if j.truthy then pyStrip (pyStr j) :: acc else acc) []

/-- Comma-splitting fallback used in several places: split, strip, keep
non-empty tokens. -/
def commaSplitClean (s : String) : List String :=
  ((pySplitOn ',' s).filter (fun t => pyStrip t != "")).map pyStrip

/-- The unified-path ingredient extraction from the oracle response. -/
def parseIngredientsUnified (loads : String → Option Json) (data : Json) :
    List String :=
  match data.lookup "ingredients" with
  | some (.arr xs) => parseIngredientsArr xs
  | some (.str s) =>
    (match loads s with
     | some (.arr xs) => parseIngredientsParsedArr xs
     | some _ => commaSplitClean s
     | none => commaSplitClean s)
  | _ => []

/-- The oracle's proposed `summary_risk`, sanitized: stringified, stripped,
and replaced by `"Low"` when outside the canonical vocabulary. -/
def summaryProposal (data : Json) : String :=
  let s := pyStrip (pyStr (truthyOr (data.lookup "summary_risk") (.str "")))
  if riskLabels.contains s then s else "Low"

/-- The five components returned by `analyze_label_with_profile`. -/
structure AnalyzeOut where
  ingredients : List String
  nutrition : Json
  risks : List (String × String)
  summaryExplanation : String
  summaryRisk : String

/-- The oracle's proposed per-ingredient risks (`risks` field): a string
field goes through `json.loads` (falling back to `{}`), then only dict
shapes contribute entries. -/
def analyzeRisks0 (loads : String → Option Json) (data : Json) :
    List (String × String) :=
  let risksData :=
    match data.lookup "risks" with
    | some (.str s) => (match loads s with | some j => j | none => .obj [])
    | some j => j
    | none => .null
  match risksData with | .obj fs => parseRiskObj fs | _ => []

/-- The final risk map of the unified path: oracle proposals, then the
deterministic allergy override, then the `Low` default for every remaining
extracted ingredient. -/
def analyzeRiskMap (loads : String → Option Json) (data profile : Json) :
    List (String × String) :=
  setdefaultLow (parseIngredientsUnified loads data)
    (overrideAllergies (parseIngredientsUnified loads data) (allergiesOf profile)
      (analyzeRisks0 loads data))

/-- The re-evaluated `summary_risk`: `High`/`Medium` presence among the
per-ingredient labels wins, otherwise the oracle's sanitized proposal. -/
def analyzeSummary (loads : String → Option Json) (data profile : Json) : String :=
  let vals := (analyzeRiskMap loads data profile).map (fun kv => kv.2)
  if vals.contains "High" then "High"
  else if vals.contains "Medium" then "Medium"
  else summaryProposal data

/-- `analyze_label_with_profile`, as a function of the oracle's JSON
response `data` and the health profile (`Json.null` models `None`).
`none` models a raised exception: a non-dict oracle response (attribute
error on `data.get`) or a crash inside `normalize_nutrition`. -/
def analyzeLabelWithProfile (loads : String → Option Json) (data : Json)
    (profile : Json) : Option AnalyzeOut :=
  match data with
  | .obj _ =>
    match normalizeNutrition loads (truthyOr (data.lookup "nutrition_data") (.obj [])) with
    | none => none
    | some nutrition =>
      some ⟨parseIngredientsUnified loads data, nutrition,
            analyzeRiskMap loads data profile,
            pyStrip (pyStr (truthyOr (data.lookup "summary_explanation") (.str ""))),
            analyzeSummary loads data profile⟩
  | _ => none

/-- A `loads` stand-in for runs whose inputs never reach `json.loads`. -/
def noLoads : String → Option Json := fun _ => none

/-!
## The `/analyze` orchestrator (`api/v1/scan.py`)

The endpoint's two-tier fallback is embedded as a pure function over three
single-shot stage oracles.  Each oracle takes the number of calls already
made to it (so that the returned call counts witness that no stage is ever
invoked twice).  `valueErr` models a raised `ValueError` (the failure kind
`call_openai_json` signals for connectivity or non-JSON responses),
`otherErr` any other exception.
-/

/-- The two exception classes the endpoint distinguishes. -/
inductive StageErr where
  | valueErr
  | otherErr
  deriving DecidableEq

/-- The five-tuple a successful unified call produces. -/
structure UnifiedOut where
  ingredients : List String
  nutrition : Json
  risks : List (String × String)
  expl : String
  summary : String

/-- The analysis data assembled by the endpoint before persistence. -/
structure EndpointOut where
  ingredients : List String
  nutrition : Json
  risks : List (String × String)
  expl : Option String
  summary : Option String

/-- Endpoint outcome: assembled data or an HTTP error response. -/
inductive EndpointResult where
  | ok (out : EndpointOut)
  | httpErr (code : Nat)

/-- `{name: "Low" for name in ingredients}` (duplicate names collapse to
the same `"Low"` entry, so the comprehension and this map agree under
lookup). -/
def lowMap (ings : List String) : List (String × String) :=
  ings.map (fun n => (n, "Low"))

/-- The `/analyze` endpoint control flow.  Returns the outcome together
with how many times each stage was called (unified, decomposed extraction,
decomposed classification). -/
def analyzeEndpoint (unified : Nat → Except StageErr UnifiedOut)
    (parseStage : Nat → Except StageErr (List String × Json))
    (riskStage : List String → Nat → Except StageErr (List (String × String))) :
    EndpointResult × (Nat × Nat × Nat) :=
  match unified 0 with
  | .ok u => (.ok ⟨u.ingredients, u.nutrition, u.risks, some u.expl, some u.summary⟩, (1, 0, 0))
  | .error .otherErr => (.httpErr 500, (1, 0, 0))
  | .error .valueErr =>
    match parseStage 0 with
    | .error .valueErr => (.httpErr 502, (1, 1, 0))
    | .error .otherErr => (.httpErr 500, (1, 1, 0))
    | .ok (ings, nut) =>
      match riskStage ings 0 with
      | .ok rm => (.ok ⟨ings, nut, rm, none, none⟩, (1, 1, 1))
      | .error _ => (.ok ⟨ings, nut, lowMap ings, none, none⟩, (1, 1, 1))

/-!
## `RAGService.search_clinical_evidence` (`rag_service.py`)

The vector store is `none` when `_initialize` failed (the Python attribute
is set to `None`), otherwise a search function that may itself fail — its
`Except.error` models an exception raised by `similarity_search`.  The
whole `try` block runs in `Except`, and the service converts any error to
the fixed degraded-service string.
-/

/-- A retrieved document: page content plus metadata dict. -/
structure RagDoc where
  pageContent : String
  metadata : List (String × Json)

/-- `d.get(k, default)` on a JSON value expected to be a dict (missing key
or non-dict value yields the default, as the callers below use it). -/
def Json.getDField (d : Json) (k : String) (dflt : Json) : Json :=
  match d with
  | .obj fields => alGetD fields k dflt
  | _ => dflt

/-- The normalization `get_additive_details` applies to its input code:
`code.upper().replace("-", "").strip()`. -/
def additiveCodeNorm (code : String) : String :=
  pyStrip ⟨((pyUpper code).data.filter (fun c => c != '-'))⟩

/-- `get_additive_details`: normalize the code (upper-case, drop dashes,
strip) and look it up among the additive table keys. -/
def getAdditiveDetails (additives : List (String × Json)) (code : String) :
    Option Json :=
  if code = "" then none
  else alGet additives (additiveCodeNorm code)

/-- `get_additive_risk_info`: the descriptive phrase for a known additive,
`""` otherwise. -/
def getAdditiveRiskInfo (additives : List (String × Json)) (code : String) :
    String :=
  match getAdditiveDetails additives code with
  | none => ""
  | some details =>
    let name := pyStr (Json.getDField details "name_en" (.str "Unknown"))
    let category := pyStr (Json.getDField details "functional_class" (.str "Unknown"))
    code ++ " (" ++ name ++ ") is a " ++ category ++ "."

/-- Query enrichment: additive-looking terms (upper-cased form starts with
`E` and some character is a digit) are expanded through the reference
catalog when known. -/
def enrichTerm (additives : List (String × Json)) (term : String) : String :=
  let cleaned := pyStrip term
  if "E".data.isPrefixOf (pyUpper cleaned).data ∧ cleaned.data.any Char.isDigit then
    let riskInfo := getAdditiveRiskInfo additives cleaned
    if riskInfo = "" then cleaned else riskInfo
  else cleaned

/-- `". ".join(...)`. -/
def joinDotSpace : List String → String
  | [] => ""
  | [s] => s
  | s :: rest => s ++ ". " ++ joinDotSpace rest

/-- Formatting one evidence block (f-string in the source; newline
replacement and strip applied to the page content). -/
def formatEvidenceBlock (i : Nat) (doc : RagDoc) : String :=
  let source := pyStr (Json.getDField (.obj doc.metadata) "source" (.str "Unknown Source"))
  let page := pyStr (Json.getDField (.obj doc.metadata) "page" (.str "?"))
  let content := pyStrip ⟨doc.pageContent.data.map (fun c => if c = '\n' then ' ' else c)⟩
  "EVIDENCE #" ++ toString (i + 1) ++ " (Source: " ++ source ++ ", Page: " ++
    page ++ "):\n\"" ++ content ++ "\""

/-- `"\n\n".join(...)`. -/
def joinBlankLine : List String → String
  | [] => ""
  | [s] => s
  | s :: rest => s ++ "\n\n" ++ joinBlankLine rest

/-- The body of the `try` block: enrich, join, search, format.  Errors are
whatever the search function raises. -/
def ragTryBlock (additives : List (String × Json))
    (search : String → Nat → Except String (List RagDoc))
    (queryTerms : List String) (k : Nat) : Except String String := do
  let enriched := queryTerms.map (enrichTerm additives)
  let results ← search (joinDotSpace enriched) k
  match results with
  | [] => pure "No specific clinical guidelines found for these ingredients."
  | _ =>
    pure (joinBlankLine (results.enum.map (fun p => formatEvidenceBlock p.1 p.2)))

/-- `search_clinical_evidence`: `none` store models the uninitialized
service; every failure path is converted to a plain `.ok` string. -/
def searchClinicalEvidence (additives : List (String × Json))
    (store : Option (String → Nat → Except String (List RagDoc)))
    (queryTerms : List String) (k : Nat) : Except String String :=
  match store with
  | none => .ok "No clinical evidence available (Service Unavailable)."
  | some search =>
    if queryTerms.isEmpty then .ok ""
    else
      match ragTryBlock additives search queryTerms k with
      | .ok s => .ok s
      | .error _ => .ok "Error retrieving clinical evidence."

/-!
## `ReferenceDataService` lookups (`reference_service.py`)

The loaded JSON tables are passed as association lists.  `is_known_allergen`
normalizes with `.lower().strip()` only, then tries the table keys before
scanning the per-entry `name_en` / `name_tr` fields.  `none` models the
`AttributeError` Python would raise when an entry is not a dict or holds a
non-string name (so that `.lower()` fails); well-formed tables never hit it.
-/

/-- The scan over allergen entries comparing lowered display names. -/
def scanAllergenNames : List (String × Json) → String → Option Bool
  | [], _ => some false
  | (_, d) :: rest, n =>
    match d with
    | .obj fs =>
      (match alGetD fs "name_en" (.str "") with
       | .str en =>
         if pyLower en = n then some true
         else
           match alGetD fs "name_tr" (.str "") with
           | .str tr => if pyLower tr = n then some true else scanAllergenNames rest n
           | _ => none
       | _ => none)
    | _ => none

/-- `is_known_allergen`. -/
def isKnownAllergen (allergens : List (String × Json)) (ingredientName : String) :
    Option Bool :=
  if ingredientName = "" then some false
  else
    let n := pyStrip (pyLower ingredientName)
    if (alGet allergens n).isSome then some true
    else scanAllergenNames allergens n


/-!
## Lemmas about the dict operations
-/

theorem alGet_insert_self {α : Type} (m : List (String × α)) (k : String) (v : α) :
    alGet (alInsert m k v) k = some v := by
  induction m with
  | nil => simp [alInsert, alGet]
  | cons hd tl ih =>
    obtain ⟨k0, v0⟩ := hd
    by_cases h : k0 = k
    · simp [alInsert, h, alGet]
    · simp [alInsert, h, alGet, ih]

theorem alGet_insert_ne {α : Type} (m : List (String × α)) (k k' : String) (v : α)
    (h : k' ≠ k) : alGet (alInsert m k v) k' = alGet m k' := by
  induction m with
  | nil => simp [alInsert, alGet, (Ne.symm h : k ≠ k')]
  | cons hd tl ih =>
    obtain ⟨k0, v0⟩ := hd
    by_cases h0 : k0 = k
    · subst h0
      simp [alInsert, alGet, (Ne.symm h : k0 ≠ k')]
    · simp [alInsert, h0, alGet, ih]

theorem alGet_insert_same_val {α : Type} (m : List (String × α)) (k k' : String)
    (v : α) (h : alGet m k' = some v) :
    alGet (alInsert m k v) k' = some v := by
  by_cases hk : k' = k
  · subst hk; exact alGet_insert_self m k' v
  · rw [alGet_insert_ne m k k' v hk]; exact h

theorem alGet_append_left {α : Type} (m l : List (String × α)) (k : String) (v : α)
    (h : alGet m k = some v) : alGet (m ++ l) k = some v := by
  induction m with
  | nil => simp [alGet] at h
  | cons hd tl ih =>
    obtain ⟨k0, v0⟩ := hd
    by_cases h0 : k0 = k
    · simp [alGet, h0] at h ⊢; exact h
    · simp [alGet, h0] at h ⊢; exact ih h

theorem alGet_append_right {α : Type} (m l : List (String × α)) (k : String)
    (h : alGet m k = none) : alGet (m ++ l) k = alGet l k := by
  induction m with
  | nil => simp
  | cons hd tl ih =>
    obtain ⟨k0, v0⟩ := hd
    by_cases h0 : k0 = k
    · simp [alGet, h0] at h
    · simp [alGet, h0] at h ⊢; exact ih h

theorem alGet_setdefault_preserve {α : Type} (m : List (String × α)) (k k' : String)
    (v w : α) (h : alGet m k' = some v) :
    alGet (alSetdefault m k w) k' = some v := by
  unfold alSetdefault
  by_cases hs : (alGet m k).isSome
  · simp [hs, h]
  · simp only [hs, if_false]
    exact alGet_append_left m [(k, w)] k' v h

theorem alGet_setdefault_isSome {α : Type} (m : List (String × α)) (k : String)
    (v : α) : (alGet (alSetdefault m k v) k).isSome := by
  unfold alSetdefault
  by_cases hs : (alGet m k).isSome
  · simp [hs]
  · rw [if_neg hs, alGet_append_right m [(k, v)] k (by simpa using hs)]
    simp [alGet]

theorem setdefaultLow_preserve (l : List String) :
    ∀ (m : List (String × String)) (ing v : String), alGet m ing = some v →
      alGet (setdefaultLow l m) ing = some v := by
  induction l with
  | nil => intro m ing v h; simpa [setdefaultLow]
  | cons hd tl ih =>
    intro m ing v h
    have step := alGet_setdefault_preserve m hd ing v "Low" h
    have := ih (alSetdefault m hd "Low") ing v step
    simpa [setdefaultLow, List.foldl_cons] using this

theorem setdefaultLow_isSome (l : List String) :
    ∀ (m : List (String × String)) (ing : String), ing ∈ l →
      (alGet (setdefaultLow l m) ing).isSome := by
  induction l with
  | nil => intro m ing h; cases h
  | cons hd tl ih =>
    intro m ing h
    rcases List.mem_cons.1 h with h1 | h2
    · subst h1
      have hs := alGet_setdefault_isSome m ing "Low"
      obtain ⟨v, hv⟩ := Option.isSome_iff_exists.1 hs
      have := setdefaultLow_preserve tl (alSetdefault m ing "Low") ing v hv
      simp only [setdefaultLow, List.foldl_cons]
      simp only [setdefaultLow] at this
      simp [this]
    · have := ih (alSetdefault m hd "Low") ing h2
      simpa [setdefaultLow, List.foldl_cons] using this

theorem isAllergenMatch_nil (ing : String) :
    isAllergenMatch ing [] = false := by
  simp [isAllergenMatch]

theorem overrideFold_preserve_high (ings : List String) (terms : List Json) :
    ∀ (m : List (String × String)) (ing : String), alGet m ing = some "High" →
      alGet (ings.foldl
        (fun acc i => if isAllergenMatch i terms then alInsert acc i "High" else acc)
        m) ing = some "High" := by
  induction ings with
  | nil => intro m ing h; simpa
  | cons hd tl ih =>
    intro m ing h
    simp only [List.foldl_cons]
    by_cases hm : isAllergenMatch hd terms = true
    · simp only [hm, if_true]
      exact ih _ ing (alGet_insert_same_val m hd ing "High" h)
    · simp only [hm, if_false]
      exact ih _ ing h

theorem override_preserve_high (ings : List String) (terms : List Json)
    (m : List (String × String)) (ing : String)
    (h : alGet m ing = some "High") :
    alGet (overrideAllergies ings terms m) ing = some "High" := by
  unfold overrideAllergies
  by_cases he : terms.isEmpty
  · simpa [he]
  · simp only [he, if_false]
    exact overrideFold_preserve_high ings terms m ing h

theorem overrideFold_sets_high (ings : List String) (terms : List Json) :
    ∀ (m : List (String × String)) (ing : String), ing ∈ ings →
      isAllergenMatch ing terms = true →
      alGet (ings.foldl
        (fun acc i => if isAllergenMatch i terms then alInsert acc i "High" else acc)
        m) ing = some "High" := by
  induction ings with
  | nil => intro m ing h; cases h
  | cons hd tl ih =>
    intro m ing hmem hmatch
    simp only [List.foldl_cons]
    rcases List.mem_cons.1 hmem with h1 | h2
    · subst h1
      simp only [hmatch, if_true]
      exact overrideFold_preserve_high tl terms _ ing (alGet_insert_self m ing "High")
    · by_cases hm : isAllergenMatch hd terms = true
      · simp only [hm, if_true]; exact ih _ ing h2 hmatch
      · simp only [hm, if_false]; exact ih _ ing h2 hmatch

theorem override_sets_high (ings : List String) (terms : List Json)
    (m : List (String × String)) (ing : String)
    (hmem : ing ∈ ings) (hmatch : isAllergenMatch ing terms = true) :
    alGet (overrideAllergies ings terms m) ing = some "High" := by
  have hne : terms.isEmpty = false := by
    cases terms with
    | nil => rw [isAllergenMatch_nil] at hmatch; cases hmatch
    | cons a l => rfl
  unfold overrideAllergies
  simp only [hne, if_false]
  exact overrideFold_sets_high ings terms m ing hmem hmatch

/-!
## Lemmas about `normalize_nutrition`
-/

theorem alGet_map_keys {α : Type} (f : String → α) (keys : List String) (k : String)
    (h : k ∈ keys) : alGet (keys.map (fun k0 => (k0, f k0))) k = some (f k) := by
  induction keys with
  | nil => cases h
  | cons hd tl ih =>
    by_cases h0 : hd = k
    · subst h0; simp [alGet]
    · rcases List.mem_cons.1 h with h1 | h2
      · exact absurd h1.symm h0
      · simp [alGet, h0, ih h2]

theorem alGet_map_keys_none {α : Type} (f : String → α) (keys : List String)
    (k : String) (h : k ∉ keys) :
    alGet (keys.map (fun k0 => (k0, f k0))) k = none := by
  induction keys with
  | nil => rfl
  | cons hd tl ih =>
    have h0 : hd ≠ k := fun hh => h (hh ▸ List.mem_cons_self hd tl)
    have h2 : k ∉ tl := fun hh => h (List.mem_cons_of_mem hd hh)
    simp [alGet, h0, ih h2]

theorem cleanVal_idem (v : Option Json) : cleanVal (some (cleanVal v)) = cleanVal v := by
  cases v with
  | none => rfl
  | some j => cases j <;> rfl

theorem microsVal_idem (v : Option Json) :
    microsVal (some (microsVal v)) = microsVal v := by
  cases v with
  | none => rfl
  | some j =>
    cases j with
    | obj fs => cases fs with | nil => rfl | cons a l => rfl
    | null => rfl
    | jbool b => rfl
    | num q => rfl
    | str s => rfl
    | arr xs => rfl

theorem alGet_cleanValues_macroKey (rf : List (String × Json)) (k : String)
    (h : k ∈ EXPECTED_MACRO_KEYS) :
    alGet (cleanValues rf) k = some (cleanVal (alGet rf k)) := by
  unfold cleanValues
  exact alGet_append_left _ _ k _ (alGet_map_keys (fun k0 => cleanVal (alGet rf k0)) _ k h)

theorem alGet_cleanValues_micros (rf : List (String × Json)) :
    alGet (cleanValues rf) "micros" = some (microsVal (alGet rf "micros")) := by
  unfold cleanValues
  rw [alGet_append_right _ _ _
    (alGet_map_keys_none (fun k0 => cleanVal (alGet rf k0)) _ _ (by decide))]
  simp [alGet]

theorem cleanValues_idem (rf : List (String × Json)) :
    cleanValues (cleanValues rf) = cleanValues rf := by
  have hdef : ∀ x : List (String × Json), cleanValues x =
      EXPECTED_MACRO_KEYS.map (fun k => (k, cleanVal (alGet x k))) ++
        [("micros", microsVal (alGet x "micros"))] := fun x => rfl
  rw [hdef (cleanValues rf)]
  conv_rhs => rw [hdef rf]
  congr 1
  · apply List.map_congr_left
    intro k hk
    rw [alGet_cleanValues_macroKey rf k hk, cleanVal_idem]
  · rw [alGet_cleanValues_micros rf, microsVal_idem]

theorem normalizeCore_normalizedObj (fields rf : List (String × Json)) :
    normalizeCore (normalizedObj fields rf) = some (normalizedObj fields rf) := by
  show some (normalizedObj [("basis", alGetD fields "basis" (.str "Unknown")),
      ("is_normalized_100g", alGetD fields "is_normalized_100g" (.jbool false)),
      ("values", .obj (cleanValues rf))] (cleanValues rf)) =
    some (normalizedObj fields rf)
  unfold normalizedObj
  rw [cleanValues_idem]
  rfl

theorem normalizeCore_some_shape (j y : Json) (h : normalizeCore j = some y) :
    y = .obj [] ∨ ∃ fields rf, y = normalizedObj fields rf := by
  cases j with
  | obj fields =>
    simp only [normalizeCore] at h
    cases hr : rawValues fields with
    | none => rw [hr] at h; simp at h
    | some rf =>
      rw [hr] at h
      right
      exact ⟨fields, rf, (Option.some.inj h).symm⟩
  | null => exact Or.inl (Option.some.inj h).symm
  | jbool b => exact Or.inl (Option.some.inj h).symm
  | num q => exact Or.inl (Option.some.inj h).symm
  | str s => exact Or.inl (Option.some.inj h).symm
  | arr xs => exact Or.inl (Option.some.inj h).symm

theorem normalizeNutrition_of_fixpoint (loads : String → Option Json)
    (fields rf : List (String × Json)) :
    normalizeNutrition loads (normalizedObj fields rf) = some (normalizedObj fields rf) := by
  show normalizeCore (normalizedObj fields rf) = some (normalizedObj fields rf)
  exact normalizeCore_normalizedObj fields rf

/-!
## The risk order
-/

/-- Rank of a risk label under Low < Medium < High (anything outside the
vocabulary sits at the bottom, like `Low`). -/
def riskRank (s : String) : Nat :=
  if s = "High" then 2 else if s = "Medium" then 1 else 0

/-- The maximum risk label of a list, under the rank order. -/
def maxRisk (vals : List String) : String :=
  vals.foldl (fun acc v => if riskRank acc < riskRank v then v else acc) "Low"

theorem riskRank_le_two (s : String) : riskRank s ≤ 2 := by
  unfold riskRank
  split
  · exact Nat.le_refl 2
  · split
    · exact Nat.le_succ 1
    · exact Nat.zero_le 2

theorem maxRisk_rank_le (n : Nat) (vals : List String)
    (h : ∀ v ∈ vals, riskRank v ≤ n) : riskRank (maxRisk vals) ≤ n := by
  unfold maxRisk
  have aux : ∀ (l : List String) (start : String), riskRank start ≤ n →
      (∀ v ∈ l, riskRank v ≤ n) →
      riskRank (l.foldl (fun acc v => if riskRank acc < riskRank v then v else acc) start) ≤ n := by
    intro l
    induction l with
    | nil => intro start hs _; simpa
    | cons hd tl ih =>
      intro start hs hl
      simp only [List.foldl_cons]
      by_cases hc : riskRank start < riskRank hd
      · simp only [hc, if_true]
        exact ih hd (hl hd (List.mem_cons_self hd tl)) (fun v hv => hl v (List.mem_cons_of_mem hd hv))
      · simp only [hc, if_false]
        exact ih start hs (fun v hv => hl v (List.mem_cons_of_mem hd hv))
  have h0 : riskRank "Low" ≤ n := by
    have : riskRank "Low" = 0 := by decide
    rw [this]
    exact Nat.zero_le n
  exact aux vals "Low" h0 h

theorem mem_of_contains_str (l : List String) (a v : String)
    (h : l.contains a = false) (hv : v ∈ l) : v ≠ a := by
  intro he
  subst he
  have h2 : List.elem v l = true := List.elem_iff.mpr hv
  simp only [List.contains] at h
  rw [h2] at h
  cases h

/-!
## Bridging lemmas for the analysis pipeline
-/

theorem isAllergenMatch_of (ing : String) (terms : List Json) (term : Json)
    (hterm : term ∈ terms) (hingN : normalizeTokenS ing ≠ "")
    (htermN : normalizeToken term ≠ "")
    (hrel : ((pyTokens (normalizeToken term)).any
        (fun t => (pyTokens (normalizeTokenS ing)).contains t)
      || pyInStr (normalizeToken term) (normalizeTokenS ing)
      || pyInStr (normalizeTokenS ing) (normalizeToken term)) = true) :
    isAllergenMatch ing terms = true := by
  unfold isAllergenMatch
  simp only []
  rw [if_neg hingN]
  apply List.any_eq_true.2
  refine ⟨term, hterm, ?_⟩
  rw [if_neg htermN]
  exact hrel

theorem analyze_some_elim (loads : String → Option Json) (data profile : Json)
    (out : AnalyzeOut) (h : analyzeLabelWithProfile loads data profile = some out) :
    out.ingredients = parseIngredientsUnified loads data ∧
    out.risks = analyzeRiskMap loads data profile ∧
    out.summaryRisk = analyzeSummary loads data profile := by
  cases data with
  | obj fields =>
    simp only [analyzeLabelWithProfile] at h
    cases hn : normalizeNutrition loads
        (truthyOr ((Json.obj fields).lookup "nutrition_data") (.obj [])) with
    | none => rw [hn] at h; simp at h
    | some nutrition =>
      rw [hn] at h
      have he := Option.some.inj h
      subst he
      exact ⟨rfl, rfl, rfl⟩
  | null => simp [analyzeLabelWithProfile] at h
  | jbool b => simp [analyzeLabelWithProfile] at h
  | num q => simp [analyzeLabelWithProfile] at h
  | str s => simp [analyzeLabelWithProfile] at h
  | arr xs => simp [analyzeLabelWithProfile] at h

/-!
## Claim theorems
-/

/-- C10: for every ingredient string whose normalization (NFKD, ASCII
filter, case fold, non-alphanumeric stripping) is empty — e.g. a name in a
non-Latin script — `_is_allergen_match` returns `False` against every
allergy list, so the deterministic `High` override never fires for it,
even when an allergy term is the identical string. -/
theorem spec_C10 (ing : String) (terms : List Json)
    (h : normalizeTokenS ing = "") : isAllergenMatch ing terms = false := by
  unfold isAllergenMatch
  simp only []
  rw [if_pos h]

/-- C10 witness: the CJK ingredient `"牛奶"` normalizes to the empty string
and fails to match even the identical allergy term. -/
theorem spec_C10_witness :
    normalizeTokenS "牛奶" = "" ∧
    isAllergenMatch "牛奶" [Json.str "牛奶"] = false :=
  ⟨by decide, spec_C10 "牛奶" [Json.str "牛奶"] (by decide)⟩

/-- The oracle response used to refute C1 as literally stated: one
extracted ingredient `"!!!"` whose normalized form is empty (hence a
substring of every normalized allergy term), no proposed risks. -/
def dataC1cx : Json :=
  .obj [("ingredients", .arr [.str "!!!"])]

/-- The profile used to refute C1 as literally stated. -/
def profileC1cx : Json :=
  .obj [("allergies", .arr [.str "milk"])]

/-- C1 counterexample: the claim, read literally, fails.  The ingredient
`"!!!"` normalizes to `""`, which *is* a substring of the normalized
allergy term `"milk"`, yet the returned risk map labels it `"Low"`, not
`"High"` (the code's guard `if not ing: return False` fires first). -/
theorem spec_C1_cx :
    (analyzeLabelWithProfile noLoads dataC1cx profileC1cx).map
      (fun o => (o.ingredients, alGet o.risks "!!!")) =
      some (["!!!"], some "Low") ∧
    pyInStr (normalizeTokenS "!!!") (normalizeToken (Json.str "milk")) = true ∧
    Json.str "milk" ∈ allergiesOf profileC1cx ∧
    "Low" ≠ "High" := by
  refine ⟨by decide, by decide, ?_, by decide⟩
  show Json.str "milk" ∈ [Json.str "milk"]
  exact List.mem_singleton.2 rfl

/-- C1 (amended): for every ingredient in the extracted list and every
allergy term of the profile, if both normalized forms are non-empty and
they share a token or one is a substring of the other, the returned risk
map labels the ingredient `High`, regardless of the labels the oracle
proposed.  (The amendment adds the two non-emptiness conditions, which the
unamended claim lacks — see `spec_C1_cx`.) -/
theorem spec_C1 (loads : String → Option Json) (data profile : Json)
    (out : AnalyzeOut) (ing : String) (term : Json)
    (h : analyzeLabelWithProfile loads data profile = some out)
    (hing : ing ∈ out.ingredients)
    (hterm : term ∈ allergiesOf profile)
    (hingN : normalizeTokenS ing ≠ "")
    (htermN : normalizeToken term ≠ "")
    (hrel : ((pyTokens (normalizeToken term)).any
        (fun t => (pyTokens (normalizeTokenS ing)).contains t)
      || pyInStr (normalizeToken term) (normalizeTokenS ing)
      || pyInStr (normalizeTokenS ing) (normalizeToken term)) = true) :
    alGet out.risks ing = some "High" := by
  obtain ⟨hi, hr, _⟩ := analyze_some_elim loads data profile out h
  rw [hr]
  unfold analyzeRiskMap
  apply setdefaultLow_preserve
  apply override_sets_high
  · rw [← hi]; exact hing
  · exact isAllergenMatch_of ing (allergiesOf profile) term hterm hingN htermN hrel

/-- The oracle response for the C1 amended witness (spec Scenario B): the
oracle proposes `Low` for `"süt tozu"`, the profile allergy is `"süt"`. -/
def dataC1w : Json :=
  .obj [("ingredients", .arr [.str "süt tozu"]),
        ("risks", .obj [("süt tozu", .str "Low")])]

/-- The profile for the C1 amended witness. -/
def profileC1w : Json :=
  .obj [("allergies", .arr [.str "süt"])]

/-- The analysis output for the C1 amended witness. -/
def outC1w : AnalyzeOut :=
  ⟨["süt tozu"], normalizedObj [] [], [("süt tozu", "High")], "", "High"⟩

/-- C1 witness: Scenario B — ingredient `"süt tozu"`, allergy `"süt"`,
oracle proposal `Low`; the override forces `High`. -/
theorem spec_C1_witness :
    analyzeLabelWithProfile noLoads dataC1w profileC1w = some outC1w ∧
    normalizeTokenS "süt tozu" ≠ "" ∧
    alGet outC1w.risks "süt tozu" = some "High" := by
  refine ⟨rfl, by decide, ?_⟩
  exact spec_C1 noLoads dataC1w profileC1w outC1w "süt tozu" (.str "süt") rfl
    (by decide)
    (List.mem_singleton.2 rfl)
    (by decide) (by decide) (by decide)

/-- The oracle response used to refute C2: every per-ingredient risk is
`Low`, but the oracle proposes `summary_risk = "High"`. -/
def dataC2cx : Json :=
  .obj [("ingredients", .arr [.str "water"]),
        ("risks", .obj [("water", .str "Low")]),
        ("summary_risk", .str "High")]

/-- C2 counterexample: the returned `summary_risk` is `"High"` although the
maximum per-ingredient label is `"Low"` — the oracle's proposal is *not*
overridden when no ingredient is `Medium` or `High`, so `summary_risk`
does not always equal `max(risks.values())`. -/
theorem spec_C2_cx :
    (analyzeLabelWithProfile noLoads dataC2cx .null).map
      (fun o => (o.risks, o.summaryRisk)) =
      some ([("water", "Low")], "High") ∧
    maxRisk ["Low"] = "Low" ∧
    "High" ≠ "Low" := by
  refine ⟨by decide, by decide, by decide⟩

/-- C2 (amended): the returned `summary_risk` equals the maximum
per-ingredient label whenever some ingredient is `Medium` or `High`, and it
is never ranked below that maximum; but when every per-ingredient label is
`Low` (or the map is empty) it equals the oracle's sanitized proposal,
which may exceed the maximum (see `spec_C2_cx`). -/
theorem spec_C2 (loads : String → Option Json) (data profile : Json)
    (out : AnalyzeOut)
    (h : analyzeLabelWithProfile loads data profile = some out) :
    ((out.risks.map (fun kv => kv.2)).contains "High" = true →
      out.summaryRisk = "High") ∧
    ((out.risks.map (fun kv => kv.2)).contains "High" = false →
      (out.risks.map (fun kv => kv.2)).contains "Medium" = true →
      out.summaryRisk = "Medium") ∧
    ((out.risks.map (fun kv => kv.2)).contains "High" = false →
      (out.risks.map (fun kv => kv.2)).contains "Medium" = false →
      out.summaryRisk = summaryProposal data) ∧
    riskRank (maxRisk (out.risks.map (fun kv => kv.2))) ≤ riskRank out.summaryRisk := by
  obtain ⟨_, hr, hs⟩ := analyze_some_elim loads data profile out h
  have hsum : out.summaryRisk =
      (if (out.risks.map (fun kv => kv.2)).contains "High" then "High"
       else if (out.risks.map (fun kv => kv.2)).contains "Medium" then "Medium"
       else summaryProposal data) := by
    rw [hs, hr]
    rfl
  have bne : ∀ b : Bool, b = false → ¬(b = true) := by
    intro b hb hc
    rw [hb] at hc
    cases hc
  refine ⟨?_, ?_, ?_, ?_⟩
  · intro hH; rw [hsum, if_pos hH]
  · intro hH hM
    rw [hsum, if_neg (bne _ hH), if_pos hM]
  · intro hH hM
    rw [hsum, if_neg (bne _ hH), if_neg (bne _ hM)]
  · by_cases hH : (out.risks.map (fun kv => kv.2)).contains "High" = true
    · rw [hsum, if_pos hH]
      have : riskRank "High" = 2 := by decide
      rw [this]
      exact riskRank_le_two _
    · have hH2 : (out.risks.map (fun kv => kv.2)).contains "High" = false := by
        cases hc : (out.risks.map (fun kv => kv.2)).contains "High"
        · rfl
        · exact absurd hc hH
      by_cases hM : (out.risks.map (fun kv => kv.2)).contains "Medium" = true
      · rw [hsum, if_neg (bne _ hH2), if_pos hM]
        have h1 : riskRank "Medium" = 1 := by decide
        rw [h1]
        apply maxRisk_rank_le
        intro v hv
        have hne := mem_of_contains_str _ "High" v hH2 hv
        unfold riskRank
        rw [if_neg hne]
        split
        · exact Nat.le_refl 1
        · exact Nat.zero_le 1
      · have hM2 : (out.risks.map (fun kv => kv.2)).contains "Medium" = false := by
          cases hc : (out.risks.map (fun kv => kv.2)).contains "Medium"
          · rfl
          · exact absurd hc hM
        rw [hsum, if_neg (bne _ hH2), if_neg (bne _ hM2)]
        have hmax : riskRank (maxRisk (out.risks.map (fun kv => kv.2))) ≤ 0 := by
          apply maxRisk_rank_le
          intro v hv
          have hne := mem_of_contains_str _ "High" v hH2 hv
          have hne2 := mem_of_contains_str _ "Medium" v hM2 hv
          unfold riskRank
          rw [if_neg hne, if_neg hne2]
        exact Nat.le_trans hmax (Nat.zero_le _)

/-- The oracle response for the C2 witness: one `Medium` ingredient, so the
re-evaluated summary is `Medium` whatever the oracle proposed. -/
def dataC2w : Json :=
  .obj [("ingredients", .arr [.str "sugar"]),
        ("risks", .obj [("sugar", .str "Medium")]),
        ("summary_risk", .str "Low")]

/-- The analysis output for the C2 witness. -/
def outC2w : AnalyzeOut :=
  ⟨["sugar"], normalizedObj [] [], [("sugar", "Medium")], "", "Medium"⟩

/-- C2 witness: with one `Medium` ingredient and an oracle `Low` proposal,
the summary is re-evaluated to `Medium`. -/
theorem spec_C2_witness :
    analyzeLabelWithProfile noLoads dataC2w .null = some outC2w ∧
    outC2w.summaryRisk = "Medium" :=
  ⟨rfl, (spec_C2 noLoads dataC2w .null outC2w rfl).2.1 (by decide) (by decide)⟩

/-- Extracting a macro value from a validated nutrition record. -/
def valueAt (out : Json) (k : String) : Option Json :=
  (out.lookup "values").bind (fun v => v.lookup k)

/-- The provisional nutrition input used to refute C3: salt above the 5 g
bound and sugar above carbohydrate. -/
def nutritionC3cx : Json :=
  .obj [("values", .obj [("salt_g", .num 7),
                         ("sugar_g", .num (581/10)),
                         ("carbohydrate_g", .num (498/10))])]

/-- C3 counterexample: the validator returns `salt_g = 7` (outside the
claimed `0 ≤ salt_g ≤ 5` bound) and `sugar_g = 58.1 > carbohydrate_g =
49.8` unchanged — no bound is enforced and nothing is corrected or
nulled. -/
theorem spec_C3_cx :
    (normalizeNutrition noLoads nutritionC3cx).bind (fun o => valueAt o "salt_g") =
      some (.num 7) ∧
    (normalizeNutrition noLoads nutritionC3cx).bind (fun o => valueAt o "sugar_g") =
      some (.num (581/10)) ∧
    (normalizeNutrition noLoads nutritionC3cx).bind (fun o => valueAt o "carbohydrate_g") =
      some (.num (498/10)) ∧
    ¬((7 : Rat) ≤ 5) ∧ ¬((581 : Rat)/10 ≤ 498/10) := by
  refine ⟨rfl, rfl, rfl, by norm_num, by norm_num⟩

/-- Shared pass-through lemma: a numeric macro value in a dict `values`
entry survives validation unchanged. -/
theorem normalize_macro_passthrough (loads : String → Option Json)
    (fields rf : List (String × Json)) (k : String) (q : Rat)
    (hv : alGet fields "values" = some (.obj rf))
    (hk : k ∈ EXPECTED_MACRO_KEYS)
    (hq : alGet rf k = some (.num q)) :
    ∃ out, normalizeNutrition loads (.obj fields) = some out ∧
      valueAt out k = some (.num q) := by
  have hrf : rf ≠ [] := by
    intro h0
    subst h0
    simp [alGet] at hq
  refine ⟨normalizedObj fields rf, ?_, ?_⟩
  · show normalizeCore (.obj fields) = some (normalizedObj fields rf)
    simp only [normalizeCore, rawValues]
    rw [hv]
    cases rf with
    | nil => exact absurd rfl hrf
    | cons a l => simp [Json.truthy]
  · show alGet (cleanValues rf) k = some (.num q)
    rw [alGet_cleanValues_macroKey rf k hk, hq]
    rfl

/-- C3 (amended): the validator enforces only structural validity — every
numeric macro value, including values violating the claimed
fat/sugar/salt/energy relations and bounds, is passed through unchanged,
and every non-numeric macro value becomes null.  (The claimed numeric
corrections do not exist in `normalize_nutrition`; they are only requested
of the extraction oracle in its prompt — see `spec_C3_cx`.) -/
theorem spec_C3 (loads : String → Option Json) (fields rf : List (String × Json))
    (k : String) (q : Rat)
    (hv : alGet fields "values" = some (.obj rf))
    (hk : k ∈ EXPECTED_MACRO_KEYS)
    (hq : alGet rf k = some (.num q)) :
    ∃ out, normalizeNutrition loads (.obj fields) = some out ∧
      valueAt out k = some (.num q) :=
  normalize_macro_passthrough loads fields rf k q hv hk hq

/-- The C3 witness input: an energy value above the claimed 900 kcal
bound. -/
def nutritionC3w : List (String × Json) :=
  [("values", .obj [("energy_kcal", .num 5000)])]

/-- C3 witness: `energy_kcal = 5000` passes through the validator
unchanged. -/
theorem spec_C3_witness :
    alGet nutritionC3w "values" = some (.obj [("energy_kcal", Json.num 5000)]) ∧
    (∃ out, normalizeNutrition noLoads (.obj nutritionC3w) = some out ∧
      valueAt out "energy_kcal" = some (.num 5000)) :=
  ⟨rfl, spec_C3 noLoads nutritionC3w [("energy_kcal", .num 5000)] "energy_kcal" 5000
    rfl (by decide) rfl⟩

/-- The provisional nutrition input used to refute C4 (spec Scenario A):
`sugar_g = 58.1`, `carbohydrate_g = 49.8`. -/
def nutritionC4cx : Json :=
  .obj [("values", .obj [("sugar_g", .num (581/10)),
                         ("carbohydrate_g", .num (498/10))])]

/-- C4 counterexample: the claim says the validator swaps the two fields
(so `sugar_g` would become 49.8); in fact the returned record still has
`sugar_g = 58.1` and `carbohydrate_g = 49.8` — no swap happens in
`normalize_nutrition`. -/
theorem spec_C4_cx :
    (normalizeNutrition noLoads nutritionC4cx).bind (fun o => valueAt o "sugar_g") =
      some (.num (581/10)) ∧
    (normalizeNutrition noLoads nutritionC4cx).bind (fun o => valueAt o "carbohydrate_g") =
      some (.num (498/10)) ∧
    (581 : Rat)/10 ≠ 498/10 := by
  refine ⟨rfl, rfl, by norm_num⟩

/-- C4 (amended): when both `sugar_g` and `carbohydrate_g` are present
numbers with `sugar_g > carbohydrate_g`, the validator returns both values
*unchanged* — the swap described by the spec exists only as an instruction
to the extraction oracle, not in the validator code (see `spec_C4_cx`). -/
theorem spec_C4 (loads : String → Option Json) (fields rf : List (String × Json))
    (qs qc : Rat)
    (hv : alGet fields "values" = some (.obj rf))
    (hs : alGet rf "sugar_g" = some (.num qs))
    (hc : alGet rf "carbohydrate_g" = some (.num qc))
    (_hgt : qc < qs) :
    ∃ out, normalizeNutrition loads (.obj fields) = some out ∧
      valueAt out "sugar_g" = some (.num qs) ∧
      valueAt out "carbohydrate_g" = some (.num qc) := by
  obtain ⟨out1, ho1, hv1⟩ :=
    normalize_macro_passthrough loads fields rf "sugar_g" qs hv (by decide) hs
  obtain ⟨out2, ho2, hv2⟩ :=
    normalize_macro_passthrough loads fields rf "carbohydrate_g" qc hv (by decide) hc
  refine ⟨out1, ho1, hv1, ?_⟩
  rw [ho1] at ho2
  rw [← Option.some.inj ho2] at hv2
  exact hv2

/-- The C4 witness input fields (Scenario A figures). -/
def nutritionC4w : List (String × Json) :=
  [("values", .obj [("sugar_g", .num (581/10)), ("carbohydrate_g", .num (498/10))])]

/-- C4 witness: Scenario A figures pass through unswapped. -/
theorem spec_C4_witness :
    (498 : Rat)/10 < 581/10 ∧
    (∃ out, normalizeNutrition noLoads (.obj nutritionC4w) = some out ∧
      valueAt out "sugar_g" = some (.num (581/10)) ∧
      valueAt out "carbohydrate_g" = some (.num (498/10))) :=
  ⟨by norm_num,
   spec_C4 noLoads nutritionC4w
     [("sugar_g", .num (581/10)), ("carbohydrate_g", .num (498/10))]
     (581/10) (498/10) rfl rfl rfl (by norm_num)⟩

/-- C7 counterexample: the validator is not idempotent on every input.  A
non-dict input (here the number `5`) first normalizes to the empty record
`{}`, and re-validating `{}` produces the fully populated default
structure, which differs from `{}` (its `basis` field appears). -/
theorem spec_C7_cx :
    normalizeNutrition noLoads (.num 5) = some (.obj []) ∧
    (normalizeNutrition noLoads (.num 5)).bind (fun y => y.lookup "basis") = none ∧
    ((normalizeNutrition noLoads (.num 5)).bind
      (fun y => normalizeNutrition noLoads y)).bind (fun y => y.lookup "basis") =
        some (.str "Unknown") := by
  refine ⟨rfl, rfl, rfl⟩

/-- C7 (amended): the validator is idempotent on every input whose first
validation does not collapse to the empty record `{}` — i.e. on every dict
(or dict-parsing string) input; for non-dict inputs the first pass returns
`{}` and the second pass expands `{}` to the default structure instead
(see `spec_C7_cx`). -/
theorem spec_C7 (loads : String → Option Json) (x y : Json)
    (h : normalizeNutrition loads x = some y) (hy : y ≠ .obj []) :
    normalizeNutrition loads y = some y := by
  have core : ∀ j : Json, normalizeCore j = some y →
      normalizeNutrition loads y = some y := by
    intro j hc
    rcases normalizeCore_some_shape j y hc with h1 | ⟨fields, rf, h2⟩
    · exact absurd h1 hy
    · rw [h2]
      exact normalizeNutrition_of_fixpoint loads fields rf
  cases x with
  | str s =>
    simp only [normalizeNutrition] at h
    cases hl : loads s with
    | none =>
      rw [hl] at h
      exact absurd (Option.some.inj h).symm hy
    | some j =>
      rw [hl] at h
      exact core j h
  | obj fields => exact core (.obj fields) h
  | null => exact core .null h
  | jbool b => exact core (.jbool b) h
  | num q => exact core (.num q) h
  | arr xs => exact core (.arr xs) h

/-- C7 witness: validating the empty dict yields the default structure,
which re-validates to itself. -/
theorem spec_C7_witness :
    normalizeNutrition noLoads (.obj []) = some (normalizedObj [] []) ∧
    normalizedObj [] [] ≠ .obj [] ∧
    normalizeNutrition noLoads (normalizedObj [] []) = some (normalizedObj [] []) := by
  have hne : normalizedObj [] [] ≠ Json.obj [] := by
    intro hh
    have : ([] : List (String × Json)) = [("basis", Json.str "Unknown"),
        ("is_normalized_100g", Json.jbool false),
        ("values", Json.obj (cleanValues []))] := (Json.obj.inj hh).symm
    cases this
  exact ⟨rfl, hne, spec_C7 noLoads (.obj []) (normalizedObj [] []) rfl hne⟩

theorem lowMap_get (ings : List String) (ing : String) (h : ing ∈ ings) :
    alGet (lowMap ings) ing = some "Low" := by
  induction ings with
  | nil => cases h
  | cons hd tl ih =>
    by_cases h0 : hd = ing
    · simp [lowMap, alGet, h0]
    · rcases List.mem_cons.1 h with h1 | h2
      · exact absurd h1.symm h0
      · simp [lowMap, alGet, h0]
        simpa [lowMap] using ih h2

/-- C5: the `/analyze` endpoint falls back from the unified call to the
decomposed path on a `ValueError` (extraction failure): the decomposed
extraction runs, then the decomposed classification over the extracted
ingredients; when classification fails too, every extracted ingredient is
labeled `Low` and both summary fields are `None` (empty); and no stage is
ever called more than once. -/
theorem spec_C5 (u : Nat → Except StageErr UnifiedOut)
    (p : Nat → Except StageErr (List String × Json))
    (r : List String → Nat → Except StageErr (List (String × String))) :
    (∀ (ings : List String) (nut : Json) (e : StageErr),
      u 0 = .error .valueErr → p 0 = .ok (ings, nut) → r ings 0 = .error e →
      (analyzeEndpoint u p r).1 = .ok ⟨ings, nut, lowMap ings, none, none⟩ ∧
      ∀ ing ∈ ings, alGet (lowMap ings) ing = some "Low") ∧
    ((analyzeEndpoint u p r).2.1 ≤ 1 ∧ (analyzeEndpoint u p r).2.2.1 ≤ 1 ∧
      (analyzeEndpoint u p r).2.2.2 ≤ 1) ∧
    (u 0 = .error .valueErr → (analyzeEndpoint u p r).2.2.1 = 1) ∧
    (∀ (ings : List String) (nut : Json),
      u 0 = .error .valueErr → p 0 = .ok (ings, nut) →
      (analyzeEndpoint u p r).2.2.2 = 1) := by
  refine ⟨?_, ?_, ?_, ?_⟩
  · intro ings nut e hu hp hr
    constructor
    · simp [analyzeEndpoint, hu, hp, hr]
    · intro ing hing
      exact lowMap_get ings ing hing
  · cases hu : u 0 with
    | ok v => simp [analyzeEndpoint, hu]
    | error e =>
      cases e with
      | otherErr => simp [analyzeEndpoint, hu]
      | valueErr =>
        cases hp : p 0 with
        | error e2 => cases e2 <;> simp [analyzeEndpoint, hu, hp]
        | ok pr =>
          obtain ⟨ings, nut⟩ := pr
          cases hr : r ings 0 <;> simp [analyzeEndpoint, hu, hp, hr]
  · intro hu
    cases hp : p 0 with
    | error e2 => cases e2 <;> simp [analyzeEndpoint, hu, hp]
    | ok pr =>
      obtain ⟨ings, nut⟩ := pr
      cases hr : r ings 0 <;> simp [analyzeEndpoint, hu, hp, hr]
  · intro ings nut hu hp
    cases hr : r ings 0 <;> simp [analyzeEndpoint, hu, hp, hr]

/-- The always-failing unified stage for the C5 witness. -/
def uC5w : Nat → Except StageErr UnifiedOut := fun _ => .error .valueErr

/-- The succeeding decomposed extraction for the C5 witness. -/
def pC5w : Nat → Except StageErr (List String × Json) :=
  fun _ => .ok (["şeker", "su"], Json.null)

/-- The failing decomposed classification for the C5 witness. -/
def rC5w : List String → Nat → Except StageErr (List (String × String)) :=
  fun _ _ => .error .otherErr

/-- C5 witness (Scenario D): unified fails with the `ValueError` kind,
extraction succeeds with two ingredients, classification fails; the result
labels both `Low` with empty explanation, and each stage ran at most
once. -/
theorem spec_C5_witness :
    uC5w 0 = .error .valueErr ∧
    pC5w 0 = .ok (["şeker", "su"], Json.null) ∧
    rC5w ["şeker", "su"] 0 = .error .otherErr ∧
    (analyzeEndpoint uC5w pC5w rC5w).1 =
      .ok ⟨["şeker", "su"], Json.null, lowMap ["şeker", "su"], none, none⟩ ∧
    alGet (lowMap ["şeker", "su"]) "şeker" = some "Low" ∧
    (analyzeEndpoint uC5w pC5w rC5w).2.1 ≤ 1 := by
  have h := spec_C5 uC5w pC5w rC5w
  have h1 := h.1 ["şeker", "su"] Json.null .otherErr rfl rfl rfl
  exact ⟨rfl, rfl, rfl, h1.1, h1.2 "şeker" (by decide), h.2.1.1⟩

/-- C6: evidence retrieval never raises to its caller — for every store
state, term list and `k` the result is an `.ok` string; an uninitialized
vector index yields the fixed degraded-service placeholder, and any
exception from the similarity search is converted to the fixed error
placeholder. -/
theorem spec_C6 (additives : List (String × Json))
    (store : Option (String → Nat → Except String (List RagDoc)))
    (terms : List String) (k : Nat)
    (f : String → Nat → Except String (List RagDoc)) (err : String) :
    (∃ s, searchClinicalEvidence additives store terms k = .ok s) ∧
    (searchClinicalEvidence additives none terms k =
      .ok "No clinical evidence available (Service Unavailable).") ∧
    ((∀ q n, f q n = .error err) → terms.isEmpty = false →
      searchClinicalEvidence additives (some f) terms k =
        .ok "Error retrieving clinical evidence.") := by
  refine ⟨?_, rfl, ?_⟩
  · cases store with
    | none => exact ⟨_, rfl⟩
    | some g =>
      by_cases he : terms.isEmpty = true
      · exact ⟨"", by simp [searchClinicalEvidence, he]⟩
      · cases hb : ragTryBlock additives g terms k with
        | ok s => exact ⟨s, by simp [searchClinicalEvidence, he, hb]⟩
        | error e =>
          exact ⟨"Error retrieving clinical evidence.",
            by simp [searchClinicalEvidence, he, hb]⟩
  · intro hf he
    have hb : ragTryBlock additives f terms k = .error err := by
      simp only [ragTryBlock, hf]
      rfl
    simp [searchClinicalEvidence, he, hb]

/-- The always-raising similarity search for the C6 witness. -/
def fC6w : String → Nat → Except String (List RagDoc) :=
  fun _ _ => .error "connection refused"

/-- C6 witness: an uninitialized store yields the service-unavailable
placeholder; a store whose search always raises yields the retrieval-error
placeholder; both are `.ok`. -/
theorem spec_C6_witness :
    searchClinicalEvidence [] none ["sugar", "E102"] 3 =
      .ok "No clinical evidence available (Service Unavailable)." ∧
    searchClinicalEvidence [] (some fC6w) ["sugar", "E102"] 3 =
      .ok "Error retrieving clinical evidence." ∧
    (∃ s, searchClinicalEvidence [] (some fC6w) ["sugar", "E102"] 3 = .ok s) := by
  have h := spec_C6 [] (some fC6w) ["sugar", "E102"] 3 fC6w "connection refused"
  exact ⟨(spec_C6 [] none ["sugar", "E102"] 3 fC6w "x").2.1,
    h.2.2 (fun q n => rfl) rfl, h.1⟩

/-- C8: the classification step returns a risk map with an entry for every
ingredient of the input list — both in the decomposed classifier
(`assess_ingredient_risks`) and in the unified path, whatever the oracle
responded and whatever the profile: ingredients covered by neither the
oracle proposal nor the allergy override receive `Low` via `setdefault`. -/
theorem spec_C8 (loads : String → Option Json) (oracleData : Json)
    (ings : List String) (profile : Json) (data2 profile2 : Json)
    (out : AnalyzeOut) :
    (∀ ing ∈ ings,
      (alGet (assessIngredientRisks loads oracleData ings profile) ing).isSome = true) ∧
    (analyzeLabelWithProfile loads data2 profile2 = some out →
      ∀ ing ∈ out.ingredients, (alGet out.risks ing).isSome = true) := by
  constructor
  · intro ing hmem
    exact setdefaultLow_isSome ings _ ing hmem
  · intro h ing hmem
    obtain ⟨hi, hr, _⟩ := analyze_some_elim loads data2 profile2 out h
    rw [hr]
    unfold analyzeRiskMap
    apply setdefaultLow_isSome
    rw [← hi]
    exact hmem

/-- The oracle response for the C8 witness: the oracle labels none of the
extracted ingredients. -/
def dataC8w : Json := .obj [("ingredients", .arr [.str "water", .str "salt"])]

/-- The analysis output for the C8 witness. -/
def outC8w : AnalyzeOut :=
  ⟨["water", "salt"], normalizedObj [] [],
   [("water", "Low"), ("salt", "Low")], "", "Low"⟩

/-- C8 witness: with an empty oracle risk proposal both extracted
ingredients still get entries (defaulted to `Low`) in both paths. -/
theorem spec_C8_witness :
    (alGet (assessIngredientRisks noLoads (.obj []) ["water", "salt"] .null)
      "salt").isSome = true ∧
    analyzeLabelWithProfile noLoads dataC8w .null = some outC8w ∧
    (alGet outC8w.risks "water").isSome = true := by
  have h := spec_C8 noLoads (.obj []) ["water", "salt"] .null dataC8w .null outC8w
  exact ⟨h.1 "salt" (by decide), rfl, h.2 rfl "water" (by decide)⟩

/-- The allergen table used for the C9 counterexample and witness: one
entry whose Turkish display name carries a diacritic. -/
def allergensC9 : List (String × Json) :=
  [("milk", .obj [("name_en", .str "Milk"), ("name_tr", .str "süt")])]

/-- The additive table used for the C9 witness. -/
def additivesC9 : List (String × Json) :=
  [("E330", .obj [("name_en", .str "Citric acid"),
                  ("functional_class", .str "acidity regulator")])]

/-- C9 counterexample: lookup is *not* diacritic-insensitive.  The stored
synonym `"süt"` is found when queried verbatim, but the query `"sut"`,
which differs only in the diacritic, is not found — the code lowercases
and strips, but never folds diacritics. -/
theorem spec_C9_cx :
    isKnownAllergen allergensC9 "süt" = some true ∧
    isKnownAllergen allergensC9 "sut" = some false ∧
    normalizeTokenS "süt" = normalizeTokenS "sut" := by
  refine ⟨by decide, by decide, by decide⟩

/-- C9 (amended): Reference Catalog lookup is case-insensitive only —
two non-empty terms that agree after `.lower().strip()` (resp. after the
additive normalization `.upper().replace("-","").strip()`) are
indistinguishable, with the canonical-key match tried before the
display-name scan; but lookup is diacritic-*sensitive* (see `spec_C9_cx`),
and unmatched terms yield the not-found result. -/
theorem spec_C9 (allergens additives : List (String × Json)) (a b c d : String) :
    (a ≠ "" → b ≠ "" → pyStrip (pyLower a) = pyStrip (pyLower b) →
      isKnownAllergen allergens a = isKnownAllergen allergens b) ∧
    (c ≠ "" → d ≠ "" → additiveCodeNorm c = additiveCodeNorm d →
      getAdditiveDetails additives c = getAdditiveDetails additives d) := by
  constructor
  · intro ha hb heq
    unfold isKnownAllergen
    rw [if_neg ha, if_neg hb, heq]
  · intro hc hd heq
    unfold getAdditiveDetails
    rw [if_neg hc, if_neg hd, heq]

/-- C9 witness: `"MILK"` and `"milk"` resolve identically in the allergen
table, and `"e-330"` and `"E330"` resolve identically in the additive
table. -/
theorem spec_C9_witness :
    pyStrip (pyLower "MILK") = pyStrip (pyLower "milk") ∧
    isKnownAllergen allergensC9 "MILK" = isKnownAllergen allergensC9 "milk" ∧
    additiveCodeNorm "e-330" = additiveCodeNorm "E330" ∧
    getAdditiveDetails additivesC9 "e-330" = getAdditiveDetails additivesC9 "E330" := by
  have h := spec_C9 allergensC9 additivesC9 "MILK" "milk" "e-330" "E330"
  exact ⟨by decide,
    h.1 (by decide) (by decide) (by decide),
    by decide,
    h.2 (by decide) (by decide) (by decide)⟩
